import Mathlib

/-!
Shallow embedding of the resilience-and-interpretation core of the yt-ninja
repository: the error taxonomy and classifier (src/utils/errors.ts), the retry
executor (RetryHandler.withRetry), and the structured-text extractors of the
GenAI client (GenAIClient) and the AI analyzer (AIAnalyzer.generateHighlights).

Modelling conventions:
- TypeScript strings are modelled as lists of characters (Str).
- JavaScript numbers that carry fractional data (scores, relevance,
  confidence, frequency read from JSON) are modelled as rationals; values
  produced by parseInt on digit-only captures are modelled as naturals.
- Asynchronous effects are modelled by explicit data flow: the outcome of the
  retry-wrapped text-generation call is an explicit (Except YTNinjaError Str)
  argument, and withRetry consumes a function from the attempt number to that
  attempt's outcome, returning the final result together with the number of
  attempts made and the list of inserted backoff delays.
- The JavaScript regular-expression match step of each extractor is not
  re-implemented; instead the list of captured raw records (or the parsed JSON
  value) is an explicit argument of the corresponding *Run function, and the
  validation / ranking / degradation logic downstream of matching is
  translated line by line from the source.
-/

namespace YTNinjaModel

/-- TypeScript strings are modelled as lists of characters. -/
abbrev Str := List Char

/-- Model of JavaScript String.prototype.toLowerCase (character-wise). -/
def toLowerStr (s : Str) : Str := s.map Char.toLower

/-- `leadsWith pre s` holds iff `pre` is an initial segment of `s`. -/
def leadsWith : Str → Str → Bool
  | [], _ => true
  | _ :: _, [] => false
  | c :: cs, d :: ds => c == d && leadsWith cs ds

/-- `containsSub s sub`: `sub` occurs as a contiguous substring of `s`
(model of JavaScript String.prototype.includes). -/
def containsSub (s sub : Str) : Bool :=
  match s with
  | [] => sub.isEmpty
  | _ :: rest => leadsWith sub s || containsSub rest sub

/-- Whitespace characters relevant to the JavaScript sources modelled here. -/
def isWs (c : Char) : Bool := c == ' ' || c == '\t' || c == '\n' || c == '\r'

/-- Model of JavaScript String.prototype.trim. -/
def trimStr (s : Str) : Str :=
  ((s.dropWhile isWs).reverse.dropWhile isWs).reverse

/-- Decimal digit character for a value below ten. -/
def digitChar (n : Nat) : Char := Char.ofNat (48 + n)

/-- Fuel-driven decimal digit expansion; the fuel argument only forces
structural recursion and any fuel above the number is enough. -/
def natReprAux : Nat → Nat → Str
  | 0, _ => []
  | fuel + 1, n =>
    if n < 10 then [digitChar n]
    else natReprAux fuel (n / 10) ++ [digitChar (n % 10)]

/-- Model of JavaScript Number.prototype.toString for naturals
(decimal digit expansion). -/
def natRepr (n : Nat) : Str := natReprAux (n + 1) n

/-- Model of String.prototype.padStart(2, zero) applied to a natural number. -/
def pad2 (n : Nat) : Str :=
  if n < 10 then '0' :: natRepr n else natRepr n

/-- Accumulator-style decimal parser over characters. -/
def parseNatAux : Str → Nat → Nat
  | [], acc => acc
  | c :: cs, acc => parseNatAux cs (acc * 10 + (c.toNat - 48))

/-- Model of parseInt on a digit-only capture; the empty string is read as 0
(the sources guard the only reachable empty case with a zero default). -/
def parseNatStr (s : Str) : Nat := parseNatAux s 0

/-- Split a character list at every occurrence of a separator character
(model of String.prototype.split with a single-character separator). -/
def splitSep (sep : Char) : Str → List Str
  | [] => [[]]
  | c :: cs =>
    if c == sep then [] :: splitSep sep cs
    else
      match splitSep sep cs with
      | [] => [[c]]
      | seg :: rest => (c :: seg) :: rest

/-!
## Error taxonomy, classifier and retry executor (src/utils/errors.ts)
-/

/-- Model of the ErrorCode enum of src/utils/errors.ts. -/
inductive ErrorCode where
  | INVALID_URL | INVALID_TIMESTAMP | INVALID_FORMAT | INVALID_QUALITY
  | INVALID_PATH | INVALID_RANGE
  | VIDEO_NOT_FOUND | VIDEO_UNAVAILABLE | PRIVATE_VIDEO | AGE_RESTRICTED
  | GEO_BLOCKED | RATE_LIMITED | PLAYLIST_NOT_FOUND | CHANNEL_NOT_FOUND
  | NETWORK_ERROR | DOWNLOAD_FAILED | TIMEOUT | DISK_SPACE | INCOMPLETE_DOWNLOAD
  | FFMPEG_ERROR | CODEC_ERROR | CORRUPTED_FILE | INSUFFICIENT_RESOURCES
  | AI_API_KEY_INVALID | AI_RATE_LIMITED | AI_SERVICE_UNAVAILABLE | AI_TOKEN_LIMIT
  | PLAYER_NOT_FOUND | PLAYER_LAUNCH_FAILED | STREAM_UNAVAILABLE | NO_ACTIVE_PLAYBACK
  | UNKNOWN_ERROR | OPERATION_CANCELLED | DOWNLOAD_ERROR
deriving DecidableEq, BEq

/-- Model of the YTNinjaError class: code, message and remediation
suggestions (the opaque details field is not modelled). -/
structure YTNinjaError where
  code : ErrorCode
  message : Str
  suggestions : List Str := []
deriving DecidableEq

/-- A raw JavaScript failure reaching the retry handler: either a structured
YTNinjaError or a plain Error carrying only a message. -/
inductive JSError where
  | ytninja (e : YTNinjaError)
  | plain (message : Str)
deriving DecidableEq

namespace ErrorClassifier

/-- Model of ErrorClassifier.classifyAIError (src/utils/errors.ts lines
219-259): the raw failure's message is lowercased and an ordered list of
substring rules is tested, the first match winning. -/
def classifyAIError (message : Str) : YTNinjaError :=
  let m := toLowerStr message
  if containsSub m "api key".toList || containsSub m "authentication".toList then
    { code := .AI_API_KEY_INVALID
      message := "Invalid or missing AI API key".toList
      suggestions := ["Check your GEMINI_API_KEY environment variable".toList,
                      "Verify the API key is correct".toList] }
  else if containsSub m "rate".toList || containsSub m "quota".toList ||
      containsSub m "limit".toList then
    { code := .AI_RATE_LIMITED
      message := "AI service rate limit exceeded".toList
      suggestions := ["Wait a few minutes before trying again".toList,
                      "Consider upgrading your API plan".toList] }
  else if containsSub m "token".toList || containsSub m "length".toList ||
      containsSub m "too long".toList then
    { code := .AI_TOKEN_LIMIT
      message := "Content exceeds AI token limit".toList
      suggestions := ["Try with a shorter video".toList,
                      "The transcript may be too long for processing".toList] }
  else if containsSub m "unavailable".toList || containsSub m "service".toList then
    { code := .AI_SERVICE_UNAVAILABLE
      message := "AI service is temporarily unavailable".toList
      suggestions := ["Try again later".toList,
                      "The AI service may be experiencing issues".toList] }
  else
    { code := .UNKNOWN_ERROR, message := message, suggestions := [] }

end ErrorClassifier

namespace RetryHandler

/-- The retryable error codes of RetryHandler.isRetryableError. -/
def retryableCodes : List ErrorCode :=
  [.NETWORK_ERROR, .TIMEOUT, .RATE_LIMITED, .AI_RATE_LIMITED,
   .DOWNLOAD_FAILED, .INCOMPLETE_DOWNLOAD]

/-- Model of RetryHandler.isRetryableError (src/utils/errors.ts lines
312-335): a YTNinjaError is retryable iff its code is in retryableCodes; any
other failure is retryable iff its lowercased message contains one of four
substrings. -/
def isRetryableError : JSError → Bool
  | .ytninja e => retryableCodes.contains e.code
  | .plain msg =>
    let m := toLowerStr msg
    containsSub m "timeout".toList || containsSub m "network".toList ||
      containsSub m "rate limit".toList || containsSub m "temporary".toList

/-- Model of the options object of RetryHandler.withRetry with its source
defaults; the default shouldRetry predicate accepts every failure, exactly as
in the source. -/
structure RetryOptions where
  maxAttempts : Nat := 3
  initialDelay : Nat := 1000
  maxDelay : Nat := 8000
  shouldRetry : JSError → Bool := fun _ => true

instance exceptDecEq {ε α : Type} [DecidableEq ε] [DecidableEq α] :
    DecidableEq (Except ε α)
  | .ok a, .ok b => decidable_of_iff (a = b) (by simp)
  | .ok _, .error _ => .isFalse (fun h => Except.noConfusion h)
  | .error _, .ok _ => .isFalse (fun h => Except.noConfusion h)
  | .error e, .error f => decidable_of_iff (e = f) (by simp)

/-- Observable trace of one withRetry run: the final outcome (error none
models the post-loop throw of an undefined lastError, reachable only when
maxAttempts is zero), the number of attempts made, and the backoff delays
inserted between attempts. -/
structure RetryTrace (T : Type) where
  result : Except (Option JSError) T
  attemptsMade : Nat
  delays : List Nat
deriving DecidableEq

/-- The attempt loop of RetryHandler.withRetry (src/utils/errors.ts lines
287-304). The argument attempt is the 1-based attempt counter and remaining
the number of loop iterations left, so remaining = 0 models loop exit (the
final throw of lastError), and remaining = 1 models the last attempt. -/
def retryLoop {T : Type} (fn : Nat → Except JSError T) (sr : JSError → Bool)
    (initialDelay maxDelay : Nat) : Nat → Nat → RetryTrace T
  | _, 0 => ⟨.error none, 0, []⟩
  | attempt, r + 1 =>
    match fn attempt with
    | .ok v => ⟨.ok v, 1, []⟩
    | .error e =>
      if r = 0 || !sr e then ⟨.error (some e), 1, []⟩
      else
        let d := min (initialDelay * 2 ^ (attempt - 1)) maxDelay
        let t := retryLoop fn sr initialDelay maxDelay (attempt + 1) r
        ⟨t.result, t.attemptsMade + 1, d :: t.delays⟩

/-- Model of RetryHandler.withRetry (src/utils/errors.ts lines 269-307): fn n
is the outcome of the n-th invocation of the wrapped operation. -/
def withRetry {T : Type} (fn : Nat → Except JSError T)
    (options : RetryOptions := {}) : RetryTrace T :=
  retryLoop fn options.shouldRetry options.initialDelay options.maxDelay
    1 options.maxAttempts

end RetryHandler

/-!
## Canonical record types (src/types) and further string helpers
-/

/-- Model of SummaryResult. -/
structure SummaryResult where
  summary : Str
  keyPoints : List Str
  wordCount : Nat
deriving DecidableEq

/-- Model of Chapter. -/
structure Chapter where
  timestamp : Str
  title : Str
  description : Str
deriving DecidableEq

/-- Model of Keyword; relevance and frequency are JavaScript numbers,
modelled as rationals. -/
structure Keyword where
  keyword : Str
  relevance : ℚ
  frequency : ℚ
deriving DecidableEq

/-- Model of Topic. -/
structure Topic where
  topic : Str
  confidence : ℚ
  category : Str
deriving DecidableEq

/-- Model of the highlight record built by AIAnalyzer.generateHighlights. -/
structure Highlight where
  timestamp : Str
  duration : Str
  description : Str
  reason : Str
  score : ℚ
deriving DecidableEq

/-- Index of the first occurrence of needle as a substring of hay. -/
def findSubIdx (hay needle : Str) : Option Nat :=
  match hay with
  | [] => if needle.isEmpty then some 0 else none
  | _ :: rest =>
    if leadsWith needle hay then some 0
    else (findSubIdx rest needle).map (· + 1)

/-- Suffix of hay after the first case-insensitive occurrence of needle
(needle given in lowercase), or none when needle does not occur; models a
successful anchor match of the case-insensitive summary regexes. -/
def afterFirstCI (needle hay : Str) : Option Str :=
  (findSubIdx (toLowerStr hay) needle).map
    (fun i => hay.drop (i + needle.length))

/-- Portion of hay before the first case-insensitive occurrence of needle, or
all of hay when needle does not occur; models the lazy capture bounded by a
lookahead for needle or end of input. -/
def untilFirstCI (needle hay : Str) : Str :=
  match findSubIdx (toLowerStr hay) needle with
  | some i => hay.take i
  | none => hay

/-- Model of String.prototype.split on the whitespace regex: maximal
whitespace runs separate segments, and runs touching either end contribute
empty segments, as in JavaScript; the flag records whether the previous
character belonged to a whitespace run. -/
def jsSplitWsAux : Str → Str → Bool → List Str
  | [], cur, _ => [cur.reverse]
  | c :: cs, cur, inWs =>
    if isWs c then
      if inWs then jsSplitWsAux cs [] true
      else cur.reverse :: jsSplitWsAux cs [] true
    else jsSplitWsAux cs (c :: cur) false

/-- Split on whitespace runs, JavaScript style. -/
def jsSplitWs (s : Str) : List Str := jsSplitWsAux s [] false

/-- Model of line.replace applied to the leading-dash pattern: remove one
leading dash together with the whitespace run following it; a line not
starting with a dash is unchanged. -/
def stripDashWs : Str → Str
  | '-' :: rest => rest.dropWhile isWs
  | l => l

namespace GenAIClient

/-- Model of GenAIClient.formatTimestamp (hours unpadded, minutes unpadded in
the no-hours form, as in the source). -/
def formatTimestamp (seconds : Nat) : Str :=
  let hours := seconds / 3600
  let minutes := (seconds % 3600) / 60
  let secs := seconds % 60
  if hours > 0 then natRepr hours ++ ':' :: (pad2 minutes ++ ':' :: pad2 secs)
  else natRepr minutes ++ ':' :: pad2 secs

/-- Model of GenAIClient.parseTimestamp: split on colons, parse the parts,
and combine according to the number of parts (any shape other than two or
three parts falls back to the first part). -/
def parseTimestamp (timestamp : Str) : Nat :=
  let parts := (splitSep ':' timestamp).map parseNatStr
  match parts with
  | [a, b, c] => a * 3600 + b * 60 + c
  | [a, b] => a * 60 + b
  | a :: _ => a
  | [] => 0

/-- Model of the response interpretation of GenAIClient.summarizeVideo:
summary text up to the key-points anchor (or the whole response when the
summary anchor is missing), dash-led key points, and whitespace-token word
count; an absent or empty key-point list degrades to the summary itself. -/
def parseSummaryResponse (response : Str) : SummaryResult :=
  let summary :=
    match afterFirstCI "summary:".toList response with
    | some rest => trimStr (untilFirstCI "key points:".toList rest)
    | none => response
  let keyPointsText :=
    match afterFirstCI "key points:".toList response with
    | some rest => trimStr rest
    | none => []
  let keyPoints :=
    (((splitSep '\n' keyPointsText).filter
        (fun line => leadsWith ['-'] (trimStr line))).map
      (fun line => trimStr (stripDashWs line))).filter (fun p => !p.isEmpty)
  { summary := summary
    keyPoints := if !keyPoints.isEmpty then keyPoints else [summary]
    wordCount := (jsSplitWs summary).length }

/-- Model of GenAIClient.summarizeVideo downstream of prompt construction:
the outcome of the retry-wrapped generateText call is the argument; there is
no catch, so a failure propagates unchanged. -/
def summarizeVideoRun (gen : Except YTNinjaError Str) :
    Except YTNinjaError SummaryResult :=
  gen.map parseSummaryResponse

/-- A raw chapter capture: timestamp seconds (digit capture), title text and
description text. -/
abbrev RawChapter := Nat × Str × Str

/-- The record constructed from one chapter capture. -/
def mkChapter (m : RawChapter) : Chapter :=
  { timestamp := formatTimestamp m.1
    title := trimStr m.2.1
    description := trimStr m.2.2 }

/-- Model of the tail of GenAIClient.generateChapters: the records built from
the captures, the deterministic evenly-spaced fallback when no record was
parsed, and the final stable ascending sort by parsed timestamp. -/
def generateChaptersFrom (parsed : List Chapter) (videoDuration : Nat) :
    List Chapter :=
  let targetChapters := max 5 (min 15 (videoDuration / 300))
  let chapters :=
    if parsed.isEmpty then
      let chapterDuration := videoDuration / targetChapters
      (List.range targetChapters).map (fun i =>
        { timestamp := formatTimestamp (i * chapterDuration)
          title := "Chapter ".toList ++ natRepr (i + 1)
          description := "Auto-generated chapter".toList })
    else parsed
  chapters.insertionSort
    (fun a b => parseTimestamp a.timestamp ≤ parseTimestamp b.timestamp)

/-- Model of GenAIClient.generateChapters downstream of prompt construction;
matching is abstracted as the capture list of the response, and there is no
catch, so a failure of the retry-wrapped call propagates unchanged. -/
def generateChaptersRun (capture : Str → List RawChapter)
    (videoDuration : Nat) (gen : Except YTNinjaError Str) :
    Except YTNinjaError (List Chapter) :=
  gen.map (fun response =>
    generateChaptersFrom ((capture response).map mkChapter) videoDuration)

/-- One element of the JSON array parsed in the JSON tier of
extractKeywords; a missing field models both absence and a wrongly-typed
value, and keyword none also covers the falsy empty string via kwItemOk. -/
structure RawKwItem where
  keyword : Option Str := none
  relevance : Option ℚ := none
  frequency : Option ℚ := none
deriving DecidableEq

/-- The JSON-tier filter: keyword truthy, relevance and frequency numbers. -/
def kwItemOk (it : RawKwItem) : Bool :=
  match it.keyword, it.relevance, it.frequency with
  | some k, some _, some _ => !k.isEmpty
  | _, _, _ => false

/-- The JSON-tier map: trim the keyword, clamp relevance into the unit
interval and clamp frequency up to at least one. -/
def mkJsonKeyword (it : RawKwItem) : Keyword :=
  { keyword := trimStr (it.keyword.getD [])
    relevance := min 1 (max 0 (it.relevance.getD 0))
    frequency := max 1 (it.frequency.getD 0) }

/-- The keyword list produced by the JSON tier before the threshold check. -/
def jsonTierList (parsed : List RawKwItem) : List Keyword :=
  (parsed.filter kwItemOk).map mkJsonKeyword

/-- A raw regex-tier keyword capture: keyword text, relevance and integer
frequency. -/
abbrev RawReKw := Str × ℚ × Nat

/-- The regex-tier validation: trimmed keyword truthy and relevance within
the unit interval (no clamping in this tier). -/
def reKwOk (m : RawReKw) : Bool :=
  !(trimStr m.1).isEmpty && decide (0 ≤ m.2.1) && decide (m.2.1 ≤ 1)

/-- The record pushed by the regex tier (fields taken verbatim). -/
def mkReKeyword (m : RawReKw) : Keyword :=
  { keyword := trimStr m.1, relevance := m.2.1, frequency := (m.2.2 : ℚ) }

/-- Model of the tier cascade of GenAIClient.extractKeywords downstream of
matching: the JSON tier returns its (clamped, unsorted) records truncated to
count when it reaches the min(3, count) threshold; otherwise the two regex
patterns accumulate validated records, returning them sorted by relevance
descending and truncated as soon as the threshold is reached; otherwise the
result is empty. -/
def extractKeywordsBody (jsonParsed : Option (List RawKwItem))
    (re1 re2 : List RawReKw) (count : Nat) : List Keyword :=
  let fromJson :=
    match jsonParsed with
    | some parsed =>
      if !parsed.isEmpty then
        let keywords := jsonTierList parsed
        if keywords.length ≥ min 3 count then some (keywords.take count)
        else none
      else none
    | none => none
  match fromJson with
  | some ks => ks
  | none =>
    let k1 := (re1.filter reKwOk).map mkReKeyword
    if k1.length ≥ min 3 count then
      (k1.insertionSort (fun a b => b.relevance ≤ a.relevance)).take count
    else
      let k12 := k1 ++ (re2.filter reKwOk).map mkReKeyword
      if k12.length ≥ min 3 count then
        (k12.insertionSort (fun a b => b.relevance ≤ a.relevance)).take count
      else []

/-- Observable outcome of one extractKeywords call: the returned list and
whether the retry-wrapped text-generation accessor was invoked. -/
structure KwRun where
  result : List Keyword
  calledGenerate : Bool
deriving DecidableEq

/-- Model of GenAIClient.extractKeywords: the short-transcript guard returns
an empty list before the text-generation accessor is consulted; afterwards
the whole body sits in a catch-all that converts any failure, including a
failure of the retry-wrapped generateText call, into an empty list. -/
def extractKeywordsRun (jsonParse : Str → Option (List RawKwItem))
    (re1 re2 : Str → List RawReKw) (transcript : Str) (count : Nat)
    (gen : Except YTNinjaError Str) : KwRun :=
  if transcript.isEmpty || (trimStr transcript).length < 50 then
    { result := [], calledGenerate := false }
  else
    match gen with
    | .error _ => { result := [], calledGenerate := true }
    | .ok response =>
      { result := extractKeywordsBody (jsonParse response) (re1 response)
          (re2 response) count
        calledGenerate := true }

/-- A raw topic capture: topic text, confidence and category text. -/
abbrev RawTopic := Str × ℚ × Str

/-- The record pushed for one topic capture: fields trimmed, confidence taken
verbatim (the source applies no range check). -/
def mkTopic (m : RawTopic) : Topic :=
  { topic := trimStr m.1, confidence := m.2.1, category := trimStr m.2.2 }

/-- Model of the tail of GenAIClient.detectTopics: every capture becomes a
record and the records are stably sorted by confidence descending. -/
def detectTopicsFrom (ms : List RawTopic) : List Topic :=
  (ms.map mkTopic).insertionSort (fun a b => b.confidence ≤ a.confidence)

/-- Model of GenAIClient.detectTopics downstream of prompt construction;
there is no catch, so a failure of the retry-wrapped call propagates. -/
def detectTopicsRun (capture : Str → List RawTopic)
    (gen : Except YTNinjaError Str) : Except YTNinjaError (List Topic) :=
  gen.map (fun response => detectTopicsFrom (capture response))

end GenAIClient

namespace AIAnalyzer

/-- Model of AIAnalyzer.formatTimestamp (this variant pads the hours). -/
def formatTimestamp (seconds : Nat) : Str :=
  let hours := seconds / 3600
  let minutes := (seconds % 3600) / 60
  let secs := seconds % 60
  if hours > 0 then pad2 hours ++ ':' :: (pad2 minutes ++ ':' :: pad2 secs)
  else pad2 minutes ++ ':' :: pad2 secs

/-- A raw highlight capture: start seconds and duration seconds (digit
captures), description, reason, and score. -/
structure RawHighlight where
  start : Nat
  dur : Nat
  description : Str
  reason : Str
  score : ℚ
deriving DecidableEq

/-- The validation block of AIAnalyzer.generateHighlights: start within the
video (nonnegativity is automatic for a digit capture), positive duration and
score within the unit interval; the isNaN guards of the source are vacuous
here because the captures are modelled as already-parsed numbers. -/
def rawHighlightOk (videoDuration : Nat) (m : RawHighlight) : Bool :=
  decide (m.start ≤ videoDuration) && decide (0 < m.dur) &&
    decide (0 ≤ m.score) && decide (m.score ≤ 1)

/-- The record pushed for one validated highlight capture. -/
def mkHighlight (m : RawHighlight) : Highlight :=
  { timestamp := formatTimestamp m.start
    duration := formatTimestamp m.dur
    description := trimStr m.description
    reason := trimStr m.reason
    score := m.score }

/-- Model of the tail of AIAnalyzer.generateHighlights: validation, the
empty-result early return, the stable sort by score descending, and the
truncation to the requested count. -/
def generateHighlightsFrom (ms : List RawHighlight)
    (videoDuration count : Nat) : List Highlight :=
  let highlights := (ms.filter (rawHighlightOk videoDuration)).map mkHighlight
  if highlights.isEmpty then []
  else (highlights.insertionSort (fun a b => b.score ≤ a.score)).take count

/-- Model of AIAnalyzer.generateHighlights: the three regex patterns are
tried in order with the first nonempty match list winning, and the whole body
sits in a catch-all that converts any failure, including a failure of the
retry-wrapped generateText call, into an empty list. -/
def generateHighlightsRun (p1 p2 p3 : Str → List RawHighlight)
    (videoDuration count : Nat) (gen : Except YTNinjaError Str) :
    List Highlight :=
  match gen with
  | .error _ => []
  | .ok response =>
    let m1 := p1 response
    let ms :=
      if !m1.isEmpty then m1
      else
        let m2 := p2 response
        if !m2.isEmpty then m2 else p3 response
    generateHighlightsFrom ms videoDuration count

end AIAnalyzer

/-!
## Helper lemmas: decimal printing and parsing, separators, timestamps
-/

theorem parseNatAux_append (a b : Str) (acc : Nat) :
    parseNatAux (a ++ b) acc = parseNatAux b (parseNatAux a acc) := by
  induction a generalizing acc with
  | nil => rfl
  | cons c cs ih => simp [parseNatAux, ih]

theorem digitChar_toNat {k : Nat} (h : k < 10) : (digitChar k).toNat = 48 + k := by
  interval_cases k <;> decide

theorem digitChar_ne_colon {k : Nat} (h : k < 10) : digitChar k ≠ ':' := by
  interval_cases k <;> decide

theorem parseNatAux_natReprAux :
    ∀ fuel n, n < fuel →
      ∀ acc, parseNatAux (natReprAux fuel n) acc =
        acc * 10 ^ (natReprAux fuel n).length + n := by
  intro fuel
  induction fuel with
  | zero => intro n h; omega
  | succ fuel ih =>
    intro n h acc
    rw [natReprAux]
    split_ifs with h10
    · simp [parseNatAux, digitChar_toNat h10]
    · have hlt : n / 10 < fuel := by
        have := Nat.div_lt_self (show 0 < n by omega) (show 1 < 10 by omega)
        omega
      rw [parseNatAux_append, ih (n / 10) hlt, List.length_append]
      have hm : (digitChar (n % 10)).toNat = 48 + n % 10 :=
        digitChar_toNat (Nat.mod_lt n (by omega))
      simp only [parseNatAux, hm, List.length_singleton, pow_succ]
      have hdm := Nat.div_add_mod n 10
      ring_nf
      omega

theorem parseNatAux_natRepr (n : Nat) :
    ∀ acc, parseNatAux (natRepr n) acc = acc * 10 ^ (natRepr n).length + n :=
  parseNatAux_natReprAux (n + 1) n (Nat.lt_succ_self n)

theorem parseNatStr_natRepr (n : Nat) : parseNatStr (natRepr n) = n := by
  simp [parseNatStr, parseNatAux_natRepr]

theorem parseNatStr_pad2 (n : Nat) : parseNatStr (pad2 n) = n := by
  unfold pad2
  split_ifs with h
  · have : parseNatAux ('0' :: natRepr n) 0 = parseNatAux (natRepr n) 0 := by
      simp [parseNatAux]
    simp [parseNatStr, this, parseNatAux_natRepr]
  · exact parseNatStr_natRepr n

theorem colon_notMem_natReprAux :
    ∀ fuel n, n < fuel → ':' ∉ natReprAux fuel n := by
  intro fuel
  induction fuel with
  | zero => intro n h; omega
  | succ fuel ih =>
    intro n h
    rw [natReprAux]
    split_ifs with h10
    · simp only [List.mem_singleton]
      exact fun hc => digitChar_ne_colon h10 hc.symm
    · have hlt : n / 10 < fuel := by
        have := Nat.div_lt_self (show 0 < n by omega) (show 1 < 10 by omega)
        omega
      simp only [List.mem_append, List.mem_singleton]
      rintro (hc | hc)
      · exact ih (n / 10) hlt hc
      · exact digitChar_ne_colon (Nat.mod_lt n (by omega)) hc.symm

theorem colon_notMem_natRepr (n : Nat) : ':' ∉ natRepr n :=
  colon_notMem_natReprAux (n + 1) n (Nat.lt_succ_self n)

theorem colon_notMem_pad2 (n : Nat) : ':' ∉ pad2 n := by
  unfold pad2
  split_ifs with h
  · simp only [List.mem_cons]
    rintro (hc | hc)
    · exact absurd hc (by decide)
    · exact colon_notMem_natRepr n hc
  · exact colon_notMem_natRepr n

theorem splitSep_of_notMem {c : Char} {l : Str} (h : c ∉ l) : splitSep c l = [l] := by
  induction l with
  | nil => rfl
  | cons x xs ih =>
    have hx : x ≠ c := fun hxc => h (hxc ▸ List.mem_cons_self x xs)
    have hxs : c ∉ xs := fun hm => h (List.mem_cons_of_mem x hm)
    simp [splitSep, beq_eq_false_iff_ne.mpr hx, ih hxs]

theorem splitSep_append_sep {c : Char} {a b : Str} (h : c ∉ a) :
    splitSep c (a ++ c :: b) = a :: splitSep c b := by
  induction a with
  | nil => simp [splitSep]
  | cons x xs ih =>
    have hx : x ≠ c := fun hxc => h (hxc ▸ List.mem_cons_self x xs)
    have hxs : c ∉ xs := fun hm => h (List.mem_cons_of_mem x hm)
    simp [splitSep, beq_eq_false_iff_ne.mpr hx, ih hxs]

theorem parseTimestamp_formatTimestamp (s : Nat) :
    GenAIClient.parseTimestamp (GenAIClient.formatTimestamp s) = s := by
  by_cases hp : s / 3600 > 0
  · have hfmt : GenAIClient.formatTimestamp s =
        natRepr (s / 3600) ++ ':' ::
          (pad2 (s % 3600 / 60) ++ ':' :: pad2 (s % 60)) := by
      simp [GenAIClient.formatTimestamp, hp]
    rw [hfmt]
    unfold GenAIClient.parseTimestamp
    rw [splitSep_append_sep (colon_notMem_natRepr _),
      splitSep_append_sep (colon_notMem_pad2 _),
      splitSep_of_notMem (colon_notMem_pad2 _)]
    simp only [List.map_cons, List.map_nil, parseNatStr_natRepr, parseNatStr_pad2]
    omega
  · have hfmt : GenAIClient.formatTimestamp s =
        natRepr (s % 3600 / 60) ++ ':' :: pad2 (s % 60) := by
      simp [GenAIClient.formatTimestamp, hp]
    rw [hfmt]
    unfold GenAIClient.parseTimestamp
    rw [splitSep_append_sep (colon_notMem_natRepr _),
      splitSep_of_notMem (colon_notMem_pad2 _)]
    simp only [List.map_cons, List.map_nil, parseNatStr_natRepr, parseNatStr_pad2]
    omega

/-!
## Helper lemmas: the retry loop
-/

theorem retryLoop_all_fail {T : Type} (fn : Nat → Except JSError T)
    (sr : JSError → Bool) (d0 dmax : Nat) (e : Nat → JSError) :
    ∀ r attempt, 1 ≤ attempt →
      (∀ n, attempt ≤ n → n ≤ attempt + r → fn n = .error (e n)) →
      (∀ n, attempt ≤ n → n ≤ attempt + r → sr (e n) = true) →
      RetryHandler.retryLoop fn sr d0 dmax attempt (r + 1) =
        ⟨.error (some (e (attempt + r))), r + 1,
          (List.range r).map (fun i => min (d0 * 2 ^ (attempt - 1 + i)) dmax)⟩ := by
  intro r
  induction r with
  | zero =>
    intro attempt _ hfail _
    rw [RetryHandler.retryLoop, hfail attempt le_rfl (by omega)]
    rfl
  | succ r ih =>
    intro attempt ha hfail hsr
    rw [RetryHandler.retryLoop, hfail attempt le_rfl (by omega)]
    simp only [hsr attempt le_rfl (by omega), Bool.not_true, Bool.or_false,
      if_neg (by omega : ¬(r + 1 = 0))]
    rw [ih (attempt + 1) (by omega)
      (fun n h1 h2 => hfail n (by omega) (by omega))
      (fun n h1 h2 => hsr n (by omega) (by omega))]
    rw [List.range_succ_eq_map]
    simp only [List.map_cons, List.map_map]
    rw [if_neg (by simp)]
    have hd : List.map (fun i => min (d0 * 2 ^ (attempt + 1 - 1 + i)) dmax) (List.range r)
        = List.map ((fun i => min (d0 * 2 ^ (attempt - 1 + i)) dmax) ∘ Nat.succ)
            (List.range r) := by
      apply List.map_congr_left
      intro i _
      simp only [Function.comp_apply, Nat.succ_eq_add_one]
      rw [show attempt + 1 - 1 + i = attempt - 1 + (i + 1) from by omega]
    rw [hd, show attempt + 1 + r = attempt + (r + 1) from by omega,
      show attempt - 1 + 0 = attempt - 1 from by omega]

theorem retryLoop_first_ok {T : Type} (fn : Nat → Except JSError T)
    (sr : JSError → Bool) (d0 dmax : Nat) (attempt r : Nat) (v : T)
    (h : fn attempt = .ok v) :
    RetryHandler.retryLoop fn sr d0 dmax attempt (r + 1) = ⟨.ok v, 1, []⟩ := by
  rw [RetryHandler.retryLoop, h]

theorem retryLoop_ok_after {T : Type} (fn : Nat → Except JSError T)
    (sr : JSError → Bool) (d0 dmax : Nat) (e : Nat → JSError) (v : T) :
    ∀ k attempt r, 1 ≤ attempt → k ≤ r →
      (∀ n, attempt ≤ n → n < attempt + k → fn n = .error (e n)) →
      (∀ n, attempt ≤ n → n < attempt + k → sr (e n) = true) →
      fn (attempt + k) = .ok v →
      RetryHandler.retryLoop fn sr d0 dmax attempt (r + 1) =
        ⟨.ok v, k + 1,
          (List.range k).map (fun i => min (d0 * 2 ^ (attempt - 1 + i)) dmax)⟩ := by
  intro k
  induction k with
  | zero =>
    intro attempt r _ _ _ _ hok
    exact retryLoop_first_ok fn sr d0 dmax attempt r v (by simpa using hok)
  | succ k ih =>
    intro attempt r ha hkr hfail hsr hok
    obtain ⟨r', hr'⟩ : ∃ r', r = r' + 1 := ⟨r - 1, by omega⟩
    subst hr'
    rw [RetryHandler.retryLoop, hfail attempt le_rfl (by omega)]
    simp only [hsr attempt le_rfl (by omega), Bool.not_true, Bool.or_false,
      if_neg (by omega : ¬(r' + 1 = 0))]
    rw [ih (attempt + 1) r' (by omega) (by omega)
      (fun n h1 h2 => hfail n (by omega) (by omega))
      (fun n h1 h2 => hsr n (by omega) (by omega))
      (by rw [show attempt + 1 + k = attempt + (k + 1) from by omega]; exact hok)]
    rw [List.range_succ_eq_map]
    simp only [List.map_cons, List.map_map]
    have hd : List.map (fun i => min (d0 * 2 ^ (attempt + 1 - 1 + i)) dmax)
        (List.range k)
        = List.map ((fun i => min (d0 * 2 ^ (attempt - 1 + i)) dmax) ∘ Nat.succ)
            (List.range k) := by
      apply List.map_congr_left
      intro i _
      simp only [Function.comp_apply, Nat.succ_eq_add_one]
      rw [show attempt + 1 - 1 + i = attempt - 1 + (i + 1) from by omega]
    rw [hd, show attempt - 1 + 0 = attempt - 1 from by omega]
    rw [if_neg (by simp)]

theorem retryLoop_first_noretry {T : Type} (fn : Nat → Except JSError T)
    (sr : JSError → Bool) (d0 dmax : Nat) (attempt r : Nat) (e : JSError)
    (h : fn attempt = .error e) (hsr : sr e = false) :
    RetryHandler.retryLoop fn sr d0 dmax attempt (r + 1) =
      ⟨.error (some e), 1, []⟩ := by
  rw [RetryHandler.retryLoop, h]
  simp [hsr]

/-!
## Claims about the retry executor
-/

/-- C4: for every retry policy whose maxAttempts is at least one (a policy
with zero attempts throws an undefined lastError and propagates no failure)
and every operation that fails on each attempt with a failure the retry
predicate accepts, withRetry performs exactly maxAttempts attempts before
propagating the final failure, and the delay inserted before attempt n+1
equals min(initialDelay·2^(n-1), maxDelay); on a success at any attempt k
(reached after k-1 retried failures) it returns immediately with exactly k
attempts and no further delay; the defaults are maxAttempts 3, initialDelay
1000 ms and maxDelay 8000 ms. -/
theorem claim_C4_retry_policy :
    (∀ (T : Type) (opts : RetryHandler.RetryOptions) (fn : Nat → Except JSError T)
        (e : Nat → JSError),
      1 ≤ opts.maxAttempts →
      (∀ n, 1 ≤ n → n ≤ opts.maxAttempts → fn n = .error (e n)) →
      (∀ n, 1 ≤ n → n ≤ opts.maxAttempts → opts.shouldRetry (e n) = true) →
      RetryHandler.withRetry fn opts =
        ⟨.error (some (e opts.maxAttempts)), opts.maxAttempts,
          (List.range (opts.maxAttempts - 1)).map
            (fun i => min (opts.initialDelay * 2 ^ i) opts.maxDelay)⟩)
    ∧ (∀ (T : Type) (opts : RetryHandler.RetryOptions) (fn : Nat → Except JSError T)
        (e : Nat → JSError) (v : T) (k : Nat), 1 ≤ k → k ≤ opts.maxAttempts →
        (∀ n, 1 ≤ n → n < k → fn n = .error (e n)) →
        (∀ n, 1 ≤ n → n < k → opts.shouldRetry (e n) = true) →
        fn k = .ok v →
        RetryHandler.withRetry fn opts =
          ⟨.ok v, k, (List.range (k - 1)).map
            (fun i => min (opts.initialDelay * 2 ^ i) opts.maxDelay)⟩)
    ∧ ({} : RetryHandler.RetryOptions).maxAttempts = 3
    ∧ ({} : RetryHandler.RetryOptions).initialDelay = 1000
    ∧ ({} : RetryHandler.RetryOptions).maxDelay = 8000 := by
  refine ⟨?_, ?_, rfl, rfl, rfl⟩
  · intro T opts fn e hmax hfail hsr
    unfold RetryHandler.withRetry
    obtain ⟨r, hr⟩ : ∃ r, opts.maxAttempts = r + 1 := ⟨opts.maxAttempts - 1, by omega⟩
    rw [hr]
    rw [retryLoop_all_fail fn opts.shouldRetry opts.initialDelay opts.maxDelay e r 1
      le_rfl (fun n h1 h2 => hfail n h1 (by omega))
      (fun n h1 h2 => hsr n h1 (by omega))]
    simp [show (1 : Nat) + r = r + 1 from by omega]
  · intro T opts fn e v k hk hkmax hfail hsr hok
    unfold RetryHandler.withRetry
    obtain ⟨r, hr⟩ : ∃ r, opts.maxAttempts = r + 1 := ⟨opts.maxAttempts - 1, by omega⟩
    rw [hr]
    rw [retryLoop_ok_after fn opts.shouldRetry opts.initialDelay opts.maxDelay e v
      (k - 1) 1 r (le_rfl) (by omega)
      (fun n h1 h2 => hfail n h1 (by omega))
      (fun n h1 h2 => hsr n h1 (by omega))
      (by rw [show 1 + (k - 1) = k from by omega]; exact hok)]
    have h1 : k - 1 + 1 = k := by omega
    rw [h1]
    apply congrArg
    apply List.map_congr_left
    intro i _
    rw [show 1 - 1 + i = i from by omega]

/-- Witness for C4: with the default policy and an operation failing every
attempt with a retryable failure, exactly three attempts are made and the
delays are 1000 ms and 2000 ms. -/
theorem claim_C4_retry_policy_witness :
    RetryHandler.withRetry (T := Nat) (fun _ => .error (.plain "boom".toList)) {} =
      ⟨.error (some (.plain "boom".toList)), 3, [1000, 2000]⟩ :=
  (claim_C4_retry_policy.1 Nat {} (fun _ => .error (.plain "boom".toList))
    (fun _ => .plain "boom".toList) (by decide) (fun _ _ _ => rfl)
    (fun _ _ _ => rfl)).trans (by decide)

/-- C3 counterexample: the failure with message "boom" is outside the
default-retryable set, yet when the caller supplies no retry predicate the
default options retry it — three attempts are made instead of the single
attempt the claim requires. -/
theorem claim_C3_counterexample :
    RetryHandler.isRetryableError (.plain "boom".toList) = false ∧
    RetryHandler.withRetry (T := Nat) (fun _ => .error (.plain "boom".toList)) {} =
      ⟨.error (some (.plain "boom".toList)), 3, [1000, 2000]⟩ := by
  exact ⟨by decide, by decide⟩

/-- C3 amended: when the caller supplies no retry predicate, withRetry
retries every failure (the source default accepts all); the default-retryable
set is implemented by the separate isRetryableError predicate, which callers
must pass explicitly — under it a rejected failure propagates after exactly
one attempt — and which accepts exactly the six retryable codes or, for
unstructured failures, a message containing one of the four retryable
substrings. -/
theorem claim_C3_amended :
    (∀ e : JSError, ({} : RetryHandler.RetryOptions).shouldRetry e = true)
    ∧ (∀ (T : Type) (opts : RetryHandler.RetryOptions) (fn : Nat → Except JSError T)
        (e : JSError), opts.shouldRetry = RetryHandler.isRetryableError →
        1 ≤ opts.maxAttempts → fn 1 = .error e →
        RetryHandler.isRetryableError e = false →
        RetryHandler.withRetry fn opts = ⟨.error (some e), 1, []⟩)
    ∧ (∀ e : YTNinjaError, RetryHandler.isRetryableError (.ytninja e) =
        RetryHandler.retryableCodes.contains e.code)
    ∧ (∀ m : Str, RetryHandler.isRetryableError (.plain m) =
        (containsSub (toLowerStr m) "timeout".toList ||
          containsSub (toLowerStr m) "network".toList ||
          containsSub (toLowerStr m) "rate limit".toList ||
          containsSub (toLowerStr m) "temporary".toList)) := by
  refine ⟨fun e => rfl, ?_, fun e => rfl, fun m => rfl⟩
  intro T opts fn e hpred hmax hfail hnot
  unfold RetryHandler.withRetry
  obtain ⟨r, hr⟩ : ∃ r, opts.maxAttempts = r + 1 := ⟨opts.maxAttempts - 1, by omega⟩
  rw [hr]
  exact retryLoop_first_noretry fn opts.shouldRetry opts.initialDelay opts.maxDelay
    1 r e hfail (by rw [hpred]; exact hnot)

/-- Witness for the amended C3: with isRetryableError supplied as the
predicate, a non-retryable failure propagates after exactly one attempt. -/
theorem claim_C3_amended_witness :
    RetryHandler.withRetry (T := Nat) (fun _ => .error (.plain "boom".toList))
      { shouldRetry := RetryHandler.isRetryableError } =
      ⟨.error (some (.plain "boom".toList)), 1, []⟩ :=
  claim_C3_amended.2.1 Nat { shouldRetry := RetryHandler.isRetryableError }
    (fun _ => .error (.plain "boom".toList)) (.plain "boom".toList)
    rfl (by decide) rfl (by decide)

/-!
## Claims about the classifier
-/

/-- C6: classification rules for the AI-generation surface are tested in
declaration order with the first match winning: every failure whose
lowercased message contains "api key" or "authentication" classifies as
AI_API_KEY_INVALID, even when the message also contains "rate", "quota" or
"limit", because the auth rule precedes the rate-limit rule. -/
theorem claim_C6_auth_rule_first (msg : Str)
    (h : containsSub (toLowerStr msg) "api key".toList = true ∨
      containsSub (toLowerStr msg) "authentication".toList = true) :
    (ErrorClassifier.classifyAIError msg).code = .AI_API_KEY_INVALID := by
  have hc : (containsSub (toLowerStr msg) "api key".toList ||
      containsSub (toLowerStr msg) "authentication".toList) = true := by
    rcases h with h | h <;> simp only [h, Bool.true_or, Bool.or_true]
  simp only [ErrorClassifier.classifyAIError]
  rw [if_pos hc]

/-- Witness for C6: a message containing both "authentication" and the
rate-limit keywords "rate", "limit" and "quota" still classifies as
AI_API_KEY_INVALID. -/
theorem claim_C6_auth_rule_first_witness :
    containsSub (toLowerStr "Authentication rate limit quota exceeded".toList)
      "authentication".toList = true ∧
    containsSub (toLowerStr "Authentication rate limit quota exceeded".toList)
      "limit".toList = true ∧
    (ErrorClassifier.classifyAIError
      "Authentication rate limit quota exceeded".toList).code = .AI_API_KEY_INVALID :=
  ⟨by decide, by decide,
    claim_C6_auth_rule_first "Authentication rate limit quota exceeded".toList
      (Or.inr (by decide))⟩

/-!
## Claims about the topic extractor
-/

/-- C2 counterexample: a parsed topic with confidence 1.5 is returned, not
discarded — the topic extractor applies no range check. -/
theorem claim_C2_counterexample :
    GenAIClient.detectTopicsFrom [("AI".toList, mkRat 3 2, "Tech".toList)] =
      [{ topic := "AI".toList, confidence := mkRat 3 2, category := "Tech".toList }] ∧
    ¬(mkRat 3 2 ≤ 1) :=
  ⟨by decide, by decide⟩

/-- C2 amended: detectTopics applies no confidence validation: every parsed
topic appears in the result with its confidence unchanged (an out-of-range
confidence is neither discarded nor clamped), and the result is sorted by
confidence descending. -/
theorem claim_C2_amended (ms : List GenAIClient.RawTopic) :
    (GenAIClient.detectTopicsFrom ms).length = ms.length ∧
    (∀ t ∈ GenAIClient.detectTopicsFrom ms, ∃ r ∈ ms, t = GenAIClient.mkTopic r) ∧
    List.Sorted (fun a b : Topic => b.confidence ≤ a.confidence)
      (GenAIClient.detectTopicsFrom ms) := by
  refine ⟨?_, ?_, ?_⟩
  · simp [GenAIClient.detectTopicsFrom]
  · intro t ht
    unfold GenAIClient.detectTopicsFrom at ht
    rw [List.mem_insertionSort] at ht
    obtain ⟨r, hr, hrt⟩ := List.mem_map.mp ht
    exact ⟨r, hr, hrt.symm⟩
  · haveI : IsTotal Topic (fun a b => b.confidence ≤ a.confidence) :=
      ⟨fun a b => le_total b.confidence a.confidence⟩
    haveI : IsTrans Topic (fun a b => b.confidence ≤ a.confidence) :=
      ⟨fun _ _ _ hab hbc => le_trans hbc hab⟩
    exact List.sorted_insertionSort _ _

/-- Witness for the amended C2: the record with confidence 1.5 in the output
originates from the parsed capture list. -/
theorem claim_C2_amended_witness :
    ∃ r ∈ [("AI".toList, mkRat 3 2, "Tech".toList)],
      ({ topic := "AI".toList, confidence := mkRat 3 2,
          category := "Tech".toList } : Topic) =
        GenAIClient.mkTopic r :=
  (claim_C2_amended [("AI".toList, mkRat 3 2, "Tech".toList)]).2.1 _ (by decide)

/-!
## Claims about the highlight extractor
-/

/-- C5 counterexample: a parsed highlight with start 140, duration 30 and
total duration 150 is kept even though start plus duration exceeds the media
duration — the validation block never checks the sum. -/
theorem claim_C5_counterexample :
    AIAnalyzer.generateHighlightsFrom
        [⟨140, 30, "d".toList, "r".toList, mkRat 9 10⟩] 150 7 =
      [{ timestamp := "02:20".toList, duration := "00:30".toList,
         description := "d".toList, reason := "r".toList, score := mkRat 9 10 }] ∧
    140 + 30 > 150 :=
  ⟨by decide, by decide⟩

/-- C5 amended: every returned highlight stems from a parsed record with
start between 0 and the total duration, positive duration, and score in the
unit interval (records violating any of these, such as start 200 against
total duration 150, are discarded); the bound start + duration ≤ media
duration is not enforced. -/
theorem claim_C5_amended (ms : List AIAnalyzer.RawHighlight) (D count : Nat) :
    (∀ h ∈ AIAnalyzer.generateHighlightsFrom ms D count, ∃ m ∈ ms,
        m.start ≤ D ∧ 0 < m.dur ∧ 0 ≤ m.score ∧ m.score ≤ 1 ∧
        h = AIAnalyzer.mkHighlight m) ∧
    AIAnalyzer.generateHighlightsFrom
        [⟨200, 30, "d".toList, "r".toList, mkRat 1 2⟩] 150 7 = [] := by
  constructor
  · intro h hh
    simp only [AIAnalyzer.generateHighlightsFrom] at hh
    by_cases he :
        ((ms.filter (AIAnalyzer.rawHighlightOk D)).map AIAnalyzer.mkHighlight).isEmpty
    · rw [if_pos he] at hh
      cases hh
    · rw [if_neg he] at hh
      have h2 := List.take_subset count _ hh
      rw [List.mem_insertionSort] at h2
      obtain ⟨m, hm, hmk⟩ := List.mem_map.mp h2
      have hf := List.mem_filter.mp hm
      have hok := hf.2
      simp only [AIAnalyzer.rawHighlightOk, Bool.and_eq_true, decide_eq_true_eq] at hok
      exact ⟨m, hf.1, hok.1.1.1, hok.1.1.2, hok.1.2, hok.2, hmk.symm⟩
  · decide

/-- Witness for the amended C5: a highlight kept by the extractor originates
from a parsed record satisfying the enforced bounds. -/
theorem claim_C5_amended_witness :
    ∃ m ∈ [(⟨10, 20, "d".toList, "r".toList, mkRat 1 2⟩ : AIAnalyzer.RawHighlight)],
      m.start ≤ 100 ∧ 0 < m.dur ∧ 0 ≤ m.score ∧ m.score ≤ 1 ∧
      AIAnalyzer.mkHighlight ⟨10, 20, "d".toList, "r".toList, mkRat 1 2⟩ =
        AIAnalyzer.mkHighlight m :=
  (claim_C5_amended [⟨10, 20, "d".toList, "r".toList, mkRat 1 2⟩] 100 7).1
    (AIAnalyzer.mkHighlight ⟨10, 20, "d".toList, "r".toList, mkRat 1 2⟩) (by decide)

/-- C8: highlights are ranked by score descending (the result is the sorted
valid records truncated to the requested count only after ranking), the sort
is stable (a tied pair keeps its first-seen order), and on generated text
with five valid blocks scoring 0.9, 0.4, 0.95, 0.2, 0.7 and count 3 the
result is exactly the three records ordered 0.95, 0.9, 0.7. -/
theorem claim_C8_ranking :
    (∀ (ms : List AIAnalyzer.RawHighlight) (D count : Nat),
      AIAnalyzer.generateHighlightsFrom ms D count =
        (((ms.filter (AIAnalyzer.rawHighlightOk D)).map
            AIAnalyzer.mkHighlight).insertionSort
          (fun a b => b.score ≤ a.score)).take count)
    ∧ (∀ (ms : List AIAnalyzer.RawHighlight) (D count : Nat),
      List.Sorted (fun a b : Highlight => b.score ≤ a.score)
        (AIAnalyzer.generateHighlightsFrom ms D count))
    ∧ (∀ (l : List Highlight) (a b : Highlight), a.score = b.score →
        List.Sublist [a, b] l →
        List.Sublist [a, b] (l.insertionSort (fun x y => y.score ≤ x.score)))
    ∧ AIAnalyzer.generateHighlightsFrom
        [⟨10, 20, "a".toList, "r1".toList, mkRat 9 10⟩,
         ⟨30, 20, "b".toList, "r2".toList, mkRat 4 10⟩,
         ⟨50, 20, "c".toList, "r3".toList, mkRat 95 100⟩,
         ⟨70, 20, "d".toList, "r4".toList, mkRat 2 10⟩,
         ⟨90, 20, "e".toList, "r5".toList, mkRat 7 10⟩] 600 3 =
        [{ timestamp := "00:50".toList, duration := "00:20".toList,
           description := "c".toList, reason := "r3".toList, score := mkRat 95 100 },
         { timestamp := "00:10".toList, duration := "00:20".toList,
           description := "a".toList, reason := "r1".toList, score := mkRat 9 10 },
         { timestamp := "01:30".toList, duration := "00:20".toList,
           description := "e".toList, reason := "r5".toList, score := mkRat 7 10 }] := by
  have heq : ∀ (ms : List AIAnalyzer.RawHighlight) (D count : Nat),
      AIAnalyzer.generateHighlightsFrom ms D count =
        (((ms.filter (AIAnalyzer.rawHighlightOk D)).map
            AIAnalyzer.mkHighlight).insertionSort
          (fun a b => b.score ≤ a.score)).take count := by
    intro ms D count
    simp only [AIAnalyzer.generateHighlightsFrom]
    by_cases he :
        ((ms.filter (AIAnalyzer.rawHighlightOk D)).map AIAnalyzer.mkHighlight).isEmpty
    · rw [if_pos he, List.isEmpty_iff.mp he]
      simp [List.insertionSort]
    · rw [if_neg he]
  refine ⟨heq, ?_, ?_, by decide⟩
  · intro ms D count
    rw [heq]
    haveI : IsTotal Highlight (fun a b => b.score ≤ a.score) :=
      ⟨fun a b => le_total b.score a.score⟩
    haveI : IsTrans Highlight (fun a b => b.score ≤ a.score) :=
      ⟨fun _ _ _ hab hbc => le_trans hbc hab⟩
    exact List.Pairwise.sublist (List.take_sublist _ _) (List.sorted_insertionSort _ _)
  · intro l a b hs hsub
    exact List.pair_sublist_insertionSort (le_of_eq hs.symm) hsub

/-- Witness for C8: a pair of equal-score highlights in first-seen order
remains in that order after the stable sort. -/
theorem claim_C8_ranking_witness :
    List.Sublist
      [({ timestamp := "00:10".toList, duration := "00:20".toList,
          description := "x".toList, reason := "r".toList,
          score := mkRat 1 2 } : Highlight),
       { timestamp := "00:30".toList, duration := "00:20".toList,
         description := "y".toList, reason := "r".toList, score := mkRat 1 2 }]
      (([{ timestamp := "00:10".toList, duration := "00:20".toList,
           description := "x".toList, reason := "r".toList, score := mkRat 1 2 },
         { timestamp := "00:50".toList, duration := "00:20".toList,
           description := "z".toList, reason := "r".toList, score := mkRat 3 4 },
         { timestamp := "00:30".toList, duration := "00:20".toList,
           description := "y".toList, reason := "r".toList, score := mkRat 1 2 }] :
            List Highlight).insertionSort (fun x y => y.score ≤ x.score)) :=
  claim_C8_ranking.2.2.1 _ _ _ rfl (by decide)

/-!
## Claims about the chapter extractor
-/

/-- C7: when chapter parsing yields zero records the extractor returns
exactly N = max(5, min(15, floor(D/300))) placeholder chapters at timestamps
i·floor(D/N) for i = 0..N-1, each generically titled and marked
auto-generated, in ascending timestamp order; for D = 1800 the count is 6. -/
theorem claim_C7_chapters_fallback (D : Nat) :
    GenAIClient.generateChaptersFrom [] D =
      (List.range (max 5 (min 15 (D / 300)))).map (fun i =>
        { timestamp := GenAIClient.formatTimestamp
            (i * (D / max 5 (min 15 (D / 300))))
          title := "Chapter ".toList ++ natRepr (i + 1)
          description := "Auto-generated chapter".toList }) ∧
    (GenAIClient.generateChaptersFrom [] D).length = max 5 (min 15 (D / 300)) ∧
    (GenAIClient.generateChaptersFrom [] D).map
        (fun ch => GenAIClient.parseTimestamp ch.timestamp) =
      (List.range (max 5 (min 15 (D / 300)))).map
        (fun i => i * (D / max 5 (min 15 (D / 300)))) ∧
    List.Sorted (fun a b : Chapter =>
        GenAIClient.parseTimestamp a.timestamp ≤
          GenAIClient.parseTimestamp b.timestamp)
      (GenAIClient.generateChaptersFrom [] D) ∧
    (D = 1800 → (GenAIClient.generateChaptersFrom [] D).length = 6) := by
  have hsorted : List.Sorted (fun a b : Chapter =>
      GenAIClient.parseTimestamp a.timestamp ≤
        GenAIClient.parseTimestamp b.timestamp)
      ((List.range (max 5 (min 15 (D / 300)))).map (fun i =>
        ({ timestamp := GenAIClient.formatTimestamp
              (i * (D / max 5 (min 15 (D / 300))))
           title := "Chapter ".toList ++ natRepr (i + 1)
           description := "Auto-generated chapter".toList } : Chapter))) := by
    rw [List.Sorted, List.pairwise_map]
    apply List.Pairwise.imp ?_ (List.pairwise_lt_range _)
    intro i j hij
    simp only [parseTimestamp_formatTimestamp]
    exact Nat.mul_le_mul_right _ (le_of_lt hij)
  have heq : GenAIClient.generateChaptersFrom [] D =
      (List.range (max 5 (min 15 (D / 300)))).map (fun i =>
        { timestamp := GenAIClient.formatTimestamp
            (i * (D / max 5 (min 15 (D / 300))))
          title := "Chapter ".toList ++ natRepr (i + 1)
          description := "Auto-generated chapter".toList }) := by
    simp only [GenAIClient.generateChaptersFrom, List.isEmpty_nil, if_true]
    exact List.Sorted.insertionSort_eq hsorted
  refine ⟨heq, ?_, ?_, heq ▸ hsorted, ?_⟩
  · rw [heq]
    simp
  · rw [heq, List.map_map]
    apply List.map_congr_left
    intro i _
    simp only [Function.comp_apply]
    exact parseTimestamp_formatTimestamp _
  · intro hD
    subst hD
    rw [heq]
    simp

/-- Witness for C7: at total duration 1800 the fallback has exactly six
chapters. -/
theorem claim_C7_chapters_fallback_witness :
    (GenAIClient.generateChaptersFrom [] 1800).length = 6 :=
  (claim_C7_chapters_fallback 1800).2.2.2.2 rfl

/-!
## Claims about the keyword extractor
-/

/-- C9: in the JSON tier of the keyword extractor, out-of-range numeric
fields are clamped rather than discarded: when the JSON tier wins (nonempty
parsed array reaching the min(3, count) threshold) the result is its record
list truncated to count, and every returned keyword carries relevance
min(1, max(0, parsed relevance)) and frequency max(1, parsed frequency). -/
theorem claim_C9_json_clamp (parsed : List GenAIClient.RawKwItem)
    (re1 re2 : List GenAIClient.RawReKw) (count : Nat)
    (hne : parsed ≠ [])
    (hth : (GenAIClient.jsonTierList parsed).length ≥ min 3 count) :
    GenAIClient.extractKeywordsBody (some parsed) re1 re2 count =
      (GenAIClient.jsonTierList parsed).take count ∧
    ∀ k ∈ GenAIClient.extractKeywordsBody (some parsed) re1 re2 count,
      ∃ it ∈ parsed, ∃ kw r f, it.keyword = some kw ∧ it.relevance = some r ∧
        it.frequency = some f ∧
        k = { keyword := trimStr kw, relevance := min 1 (max 0 r),
              frequency := max 1 f } := by
  have h1 : parsed.isEmpty = false := by
    cases parsed with
    | nil => exact absurd rfl hne
    | cons x xs => rfl
  have hbody : GenAIClient.extractKeywordsBody (some parsed) re1 re2 count =
      (GenAIClient.jsonTierList parsed).take count := by
    simp only [GenAIClient.extractKeywordsBody, h1, Bool.not_false, if_true]
    rw [if_pos hth]
  refine ⟨hbody, ?_⟩
  intro k hk
  rw [hbody] at hk
  have h2 : k ∈ GenAIClient.jsonTierList parsed := List.take_subset _ _ hk
  unfold GenAIClient.jsonTierList at h2
  obtain ⟨it, hit, hmk⟩ := List.mem_map.mp h2
  have hfd := List.mem_filter.mp hit
  refine ⟨it, hfd.1, ?_⟩
  have hok := hfd.2
  rcases hkb : it.keyword with _ | kw
  · simp [GenAIClient.kwItemOk, hkb] at hok
  rcases hrb : it.relevance with _ | r
  · simp [GenAIClient.kwItemOk, hkb, hrb] at hok
  rcases hfb : it.frequency with _ | f
  · simp [GenAIClient.kwItemOk, hkb, hrb, hfb] at hok
  refine ⟨kw, r, f, rfl, rfl, rfl, ?_⟩
  rw [← hmk]
  simp [GenAIClient.mkJsonKeyword, hkb, hrb, hfb]

/-- Witness for C9: a parsed relevance of 1.5 is clamped to exactly 1.0 (and
a frequency of 0 to 1) while the record is kept. -/
theorem claim_C9_json_clamp_witness :
    GenAIClient.extractKeywordsBody
        (some [⟨some "ai".toList, some (mkRat 3 2), some 4⟩,
               ⟨some "ml".toList, some (mkRat 1 2), some 2⟩,
               ⟨some "k3".toList, some (mkRat (-1) 2), some 0⟩]) [] [] 10 =
      [{ keyword := "ai".toList, relevance := 1, frequency := 4 },
       { keyword := "ml".toList, relevance := mkRat 1 2, frequency := 2 },
       { keyword := "k3".toList, relevance := 0, frequency := 1 }] :=
  ((claim_C9_json_clamp
      [⟨some "ai".toList, some (mkRat 3 2), some 4⟩,
       ⟨some "ml".toList, some (mkRat 1 2), some 2⟩,
       ⟨some "k3".toList, some (mkRat (-1) 2), some 0⟩] [] [] 10
      (by decide) (by decide)).1).trans (by decide)

/-- C10: a keyword-extraction call whose transcript is empty or whose
trimmed length is below 50 characters returns an empty list immediately,
without consulting the text-generation accessor and without failing. -/
theorem claim_C10_short_guard (jsonParse : Str → Option (List GenAIClient.RawKwItem))
    (re1 re2 : Str → List GenAIClient.RawReKw) (transcript : Str) (count : Nat)
    (gen : Except YTNinjaError Str)
    (h : transcript = [] ∨ (trimStr transcript).length < 50) :
    GenAIClient.extractKeywordsRun jsonParse re1 re2 transcript count gen =
      { result := [], calledGenerate := false } := by
  have hc : (transcript.isEmpty || decide ((trimStr transcript).length < 50)) = true := by
    rcases h with h | h
    · subst h
      rfl
    · simp [h]
  unfold GenAIClient.extractKeywordsRun
  rw [if_pos hc]

/-- Witness for C10: a five-character transcript short-circuits to an empty
result without a generator call. -/
theorem claim_C10_short_guard_witness :
    GenAIClient.extractKeywordsRun (fun _ => none) (fun _ => []) (fun _ => [])
      "short".toList 15 (.ok "x".toList) =
      { result := [], calledGenerate := false } :=
  claim_C10_short_guard (fun _ => none) (fun _ => []) (fun _ => [])
    "short".toList 15 (.ok "x".toList) (Or.inr (by decide))

/-!
## Claims about upstream failure propagation
-/

/-- C1 counterexample: a classified failure of the retry-wrapped
text-generation call inside extractKeywords is converted into an empty
result (with the generator having been consulted) instead of being surfaced
to the caller. -/
theorem claim_C1_counterexample :
    GenAIClient.extractKeywordsRun (fun _ => none) (fun _ => []) (fun _ => [])
      (List.replicate 60 'a') 15
      (.error (ErrorClassifier.classifyAIError "quota exceeded".toList)) =
      { result := [], calledGenerate := true } := by
  decide

/-- C1 amended: a failure of the retry-wrapped text-generation call
propagates unchanged to the caller for the summary, chapter and topic
extractors, but for the keyword and highlight extractors a catch-all
converts any such failure into an empty result. -/
theorem claim_C1_amended :
    (∀ e : YTNinjaError, GenAIClient.summarizeVideoRun (.error e) = .error e)
    ∧ (∀ (p : Str → List GenAIClient.RawChapter) (D : Nat) (e : YTNinjaError),
        GenAIClient.generateChaptersRun p D (.error e) = .error e)
    ∧ (∀ (p : Str → List GenAIClient.RawTopic) (e : YTNinjaError),
        GenAIClient.detectTopicsRun p (.error e) = .error e)
    ∧ (∀ (pj : Str → Option (List GenAIClient.RawKwItem))
        (p1 p2 : Str → List GenAIClient.RawReKw) (t : Str) (c : Nat)
        (e : YTNinjaError),
        (GenAIClient.extractKeywordsRun pj p1 p2 t c (.error e)).result = [])
    ∧ (∀ (p1 p2 p3 : Str → List AIAnalyzer.RawHighlight) (D c : Nat)
        (e : YTNinjaError),
        AIAnalyzer.generateHighlightsRun p1 p2 p3 D c (.error e) = []) := by
  refine ⟨fun e => rfl, fun p D e => rfl, fun p e => rfl, ?_, fun p1 p2 p3 D c e => rfl⟩
  intro pj p1 p2 t c e
  unfold GenAIClient.extractKeywordsRun
  split
  · rfl
  · rfl

end YTNinjaModel
